import Mathlib

/-!
Verification development for the crazyflie controller experiments repository.

The repository consists of two scripts:
  * `scripts/test_basiclog.py` — a telemetry pipeline: a producer thread pulls
    log frames from the vehicle link and appends them to four bounded deques
    (`timestamps`, `roll_data`, `pitch_data`, `yaw_data`, each
    `deque(maxlen=1000)`) under a single `threading.Lock`, while the main
    thread periodically runs `animate` which snapshots the buffers under the
    same lock and renders them.  A global boolean `running` is the cooperative
    stop flag; the producer loop also stops at a wall-clock deadline
    (`endTime = time.time() + 60`).
  * `scripts/test_hover.py` — a scripted flight using context managers:
    `with SyncCrazyflie(...)` (connect/disconnect) around
    `with MotionCommander(scf)` (take off on enter, land on exit) around the
    motion script `up(0.7); down(0.7); stop()`.

Machine floats carried by the channels are abstracted to `Int`: none of the
verified properties depends on the numeric values, only on list lengths,
order, branch guards and integer comparisons of timestamps.
-/

/-! ### Bounded series: `collections.deque` with `maxlen`

`timestamps = deque(maxlen=1000)` and friends (test_basiclog.py lines 33-36).
Appending to a full deque with `maxlen = N` evicts the oldest (leftmost)
element; `list(d)` returns the contents in insertion order. -/

/-- One `deque.append`: append on the right, then keep only the newest `N`
elements (Python `deque(maxlen=N)` eviction). -/
def dequeAppend (N : Nat) (xs : List Int) (v : Int) : List Int :=
  let ys := xs ++ [v]
  ys.drop (ys.length - N)

/-- Appending a whole sequence of values to an initially empty deque of
capacity `N`. -/
def dequeOfList (N : Nat) (vals : List Int) : List Int :=
  vals.foldl (dequeAppend N) []

/-- Capacity used by all four telemetry deques in the source
(`deque(maxlen=1000)`). -/
def bufCapacity : Nat := 1000

lemma dequeAppend_length (N : Nat) (xs : List Int) (v : Int) :
    (dequeAppend N xs v).length = min (xs.length + 1) N := by
  simp [dequeAppend]
  omega

lemma dequeAppend_length_le (N : Nat) (xs : List Int) (v : Int) :
    (dequeAppend N xs v).length ≤ N := by
  rw [dequeAppend_length]; omega

lemma foldl_dequeAppend (N : Nat) (vals : List Int) :
    ∀ xs : List Int, xs.length ≤ N →
      vals.foldl (dequeAppend N) xs =
        (xs ++ vals).drop (xs.length + vals.length - N) := by
  induction vals with
  | nil =>
    intro xs h
    simp [Nat.sub_eq_zero_of_le h]
  | cons v vs ih =>
    intro xs h
    have hlen : (dequeAppend N xs v).length ≤ N := dequeAppend_length_le N xs v
    rw [List.foldl_cons, ih (dequeAppend N xs v) hlen]
    show ((xs ++ [v]).drop ((xs ++ [v]).length - N) ++ vs).drop
        ((dequeAppend N xs v).length + vs.length - N) = _
    rw [← List.drop_append_of_le_length (Nat.sub_le (xs ++ [v]).length N)]
    rw [List.drop_drop, List.append_assoc, List.singleton_append]
    congr 1
    simp [dequeAppend_length]
    omega

lemma dequeOfList_eq_drop (N : Nat) (vals : List Int) :
    dequeOfList N vals = vals.drop (vals.length - N) := by
  have h := foldl_dequeAppend N vals [] (by simp)
  simpa [dequeOfList] using h

/-- C2: For every capacity `N` and every sequence `vals` of `M` appended
values, the deque's contents in insertion order are exactly the last
`min M N` appended values (the first `M - N` are evicted), and its length is
`min M N`: for `M > N` the length is `N` and the oldest `M - N` values have
been evicted, for `M ≤ N` the length is `M` and nothing was evicted. -/
theorem boundedSeries_keeps_last_capacity (N : Nat) (vals : List Int) :
    dequeOfList N vals = vals.drop (vals.length - N) ∧
    (dequeOfList N vals).length = min vals.length N := by
  refine ⟨dequeOfList_eq_drop N vals, ?_⟩
  rw [dequeOfList_eq_drop N vals, List.length_drop]
  omega

/-! ### TelemetryBuffer: the four shared deques plus the sample counter

test_basiclog.py lines 33-43: four `deque(maxlen=1000)` buffers, a counter
`data_count`, guarded by the single `data_lock`.  The only write path is the
critical section at lines 144-149 (`append_group`): append one value to each
of the four deques and increment `data_count`, all under one lock
acquisition.  The only read path is the snapshot taken inside `animate`
(lines 48-58) under the same lock.  Because of the lock, a whole run is a
sequence of atomic operations, each either one append-group or one
snapshot. -/

/-- One log frame: a timestamp plus the three stabilizer channels
(float values abstracted to `Int`). -/
structure Frame where
  timestamp : Int
  roll : Int
  pitch : Int
  yaw : Int
  deriving DecidableEq

/-- The shared buffer state: the four deques and the running counter. -/
structure BufState where
  timestamps : List Int
  roll : List Int
  pitch : List Int
  yaw : List Int
  data_count : Nat
  deriving DecidableEq

/-- The run-start state: all four deques empty, counter zero
(lines 33-36 and 42). -/
def initBuf : BufState :=
  { timestamps := [], roll := [], pitch := [], yaw := [], data_count := 0 }

/-- The critical section at lines 144-149: append the frame's four values to
the four deques of capacity `N` and increment `data_count`, atomically. -/
def appendGroup (N : Nat) (s : BufState) (f : Frame) : BufState :=
  { timestamps := dequeAppend N s.timestamps f.timestamp
    roll := dequeAppend N s.roll f.roll
    pitch := dequeAppend N s.pitch f.pitch
    yaw := dequeAppend N s.yaw f.yaw
    data_count := s.data_count + 1 }

/-- An atomic operation on the shared buffers: either the producer's
append-group or the renderer's snapshot.  The lock serializes a concurrent
run into a list of these. -/
inductive BufOp where
  | append (f : Frame)
  | snap
  deriving DecidableEq

/-- Run a serialized sequence of buffer operations from state `s`, returning
the final state and the list of snapshots taken, in order.  A snapshot is a
deep copy of the state at the moment the lock is held. -/
def runOps (N : Nat) : BufState → List BufOp → BufState × List BufState
  | s, [] => (s, [])
  | s, BufOp.append f :: rest => runOps N (appendGroup N s f) rest
  | s, BufOp.snap :: rest =>
    let r := runOps N s rest
    (r.1, s :: r.2)

/-- The four deques have equal length. -/
def eqLens (s : BufState) : Bool :=
  s.timestamps.length == s.roll.length &&
  s.roll.length == s.pitch.length &&
  s.pitch.length == s.yaw.length

/-- Buffer invariant: equal lengths, all within capacity. -/
def bufInv (N : Nat) (s : BufState) : Bool :=
  eqLens s && s.timestamps.length ≤ N

lemma bufInv_appendGroup (N : Nat) (s : BufState) (f : Frame)
    (h : bufInv N s = true) : bufInv N (appendGroup N s f) = true := by
  simp [bufInv, eqLens, appendGroup, dequeAppend_length] at h ⊢
  omega

lemma appendGroup_len_mono (N : Nat) (s : BufState) (f : Frame)
    (h : bufInv N s = true) :
    s.timestamps.length ≤ (appendGroup N s f).timestamps.length := by
  simp [bufInv, eqLens] at h
  simp [appendGroup, dequeAppend_length]
  omega

lemma runOps_len_mono (N : Nat) (ops : List BufOp) :
    ∀ s : BufState, bufInv N s = true →
      s.timestamps.length ≤ (runOps N s ops).1.timestamps.length := by
  induction ops with
  | nil => intro s _; simp [runOps]
  | cons op rest ih =>
    intro s h
    cases op with
    | append f =>
      have h1 := bufInv_appendGroup N s f h
      exact Nat.le_trans (appendGroup_len_mono N s f h) (ih _ h1)
    | snap => exact ih s h

lemma runOps_snaps (N : Nat) (ops : List BufOp) :
    ∀ s : BufState, bufInv N s = true →
      ∀ t ∈ (runOps N s ops).2,
        bufInv N t = true ∧ s.timestamps.length ≤ t.timestamps.length := by
  induction ops with
  | nil => intro s _ t ht; simp [runOps] at ht
  | cons op rest ih =>
    intro s h t ht
    cases op with
    | append f =>
      have h1 := bufInv_appendGroup N s f h
      have := ih _ h1 t (by simpa [runOps] using ht)
      exact ⟨this.1, Nat.le_trans (appendGroup_len_mono N s f h) this.2⟩
    | snap =>
      simp [runOps] at ht
      rcases ht with rfl | ht
      · exact ⟨h, Nat.le_refl _⟩
      · exact ih s h t ht

lemma runOps_snaps_chain (N : Nat) (ops : List BufOp) :
    ∀ s : BufState, bufInv N s = true →
      List.Chain' (fun a b => a.timestamps.length ≤ b.timestamps.length)
        (runOps N s ops).2 := by
  induction ops with
  | nil => intro s _; simp [runOps]
  | cons op rest ih =>
    intro s h
    cases op with
    | append f => exact ih _ (bufInv_appendGroup N s f h)
    | snap =>
      simp only [runOps]
      refine List.chain'_cons'.mpr ⟨?_, ih s h⟩
      intro t ht
      have ht' : t ∈ (runOps N s rest).2 := by
        cases hr : (runOps N s rest).2 with
        | nil => simp [hr] at ht
        | cons a l => simp [hr] at ht; simp [hr, ht]
      exact (runOps_snaps N rest s h t ht').2

/-- Number of append operations in a serialized run. -/
def countAppends : List BufOp → Nat
  | [] => 0
  | BufOp.append _ :: rest => countAppends rest + 1
  | BufOp.snap :: rest => countAppends rest

lemma runOps_data_count (N : Nat) (ops : List BufOp) :
    ∀ s : BufState,
      (runOps N s ops).1.data_count = s.data_count + countAppends ops := by
  induction ops with
  | nil => intro s; simp [runOps, countAppends]
  | cons op rest ih =>
    intro s
    cases op with
    | append f =>
      show (runOps N (appendGroup N s f) rest).1.data_count = _
      rw [ih (appendGroup N s f)]
      simp [appendGroup, countAppends]
      omega
    | snap => simp [runOps, countAppends, ih s]

lemma runOps_snaps_count (N : Nat) (ops : List BufOp) :
    ∀ s : BufState, ∀ t ∈ (runOps N s ops).2,
      s.data_count ≤ t.data_count := by
  induction ops with
  | nil => intro s t ht; simp [runOps] at ht
  | cons op rest ih =>
    intro s t ht
    cases op with
    | append f =>
      have := ih (appendGroup N s f) t (by simpa [runOps] using ht)
      have hstep : s.data_count ≤ (appendGroup N s f).data_count := by
        simp [appendGroup]
      exact Nat.le_trans hstep this
    | snap =>
      have hm : t = s ∨ t ∈ (runOps N s rest).2 := by
        simpa [runOps] using ht
      rcases hm with rfl | hm
      · exact Nat.le_refl _
      · exact ih s t hm

lemma runOps_count_chain (N : Nat) (ops : List BufOp) :
    ∀ s : BufState,
      List.Chain' (fun a b : BufState => a.data_count ≤ b.data_count)
        (runOps N s ops).2 := by
  induction ops with
  | nil => intro s; simp [runOps]
  | cons op rest ih =>
    intro s
    cases op with
    | append f => exact ih (appendGroup N s f)
    | snap =>
      simp only [runOps]
      refine List.chain'_cons'.mpr ⟨?_, ih s⟩
      intro t ht
      have ht' : t ∈ (runOps N s rest).2 := by
        cases hr : (runOps N s rest).2 with
        | nil => simp [hr] at ht
        | cons a l => simp [hr] at ht; simp [hr, ht]
      exact runOps_snaps_count N rest s t ht'

/-- C3: starting from any state satisfying the buffer invariant (in
particular the empty run-start state), after any serialized sequence of
append-group / snapshot operations every snapshot taken has all four channel
series of equal length, and the snapshot lengths are non-decreasing in the
order the snapshots were taken. -/
theorem snapshots_equal_lengths_and_monotone (N : Nat) (s : BufState)
    (ops : List BufOp) (h : bufInv N s = true) :
    (∀ t ∈ (runOps N s ops).2, eqLens t = true) ∧
    List.Chain' (fun a b : BufState => a.timestamps.length ≤ b.timestamps.length)
      (runOps N s ops).2 := by
  constructor
  · intro t ht
    have h2 := (runOps_snaps N ops s h t ht).1
    simp only [bufInv, Bool.and_eq_true] at h2
    exact h2.1
  · exact runOps_snaps_chain N ops s h

/-- A concrete frame used to instantiate theorems with hypotheses. -/
def frameA : Frame := { timestamp := 1000, roll := 0, pitch := 1, yaw := 2 }

/-- A second concrete frame. -/
def frameB : Frame := { timestamp := 1100, roll := 3, pitch := 4, yaw := 5 }

/-- A concrete serialized run: two appends interleaved with two snapshots. -/
def opsW : List BufOp :=
  [BufOp.append frameA, BufOp.snap, BufOp.append frameB, BufOp.snap]

/-- Witness for C3 at capacity 3, the empty start state and a concrete run
of two appends interleaved with two snapshots. -/
theorem snapshots_equal_lengths_and_monotone_witness :
    bufInv 3 initBuf = true ∧
    ((∀ t ∈ (runOps 3 initBuf opsW).2, eqLens t = true) ∧
     List.Chain' (fun a b : BufState => a.timestamps.length ≤ b.timestamps.length)
       (runOps 3 initBuf opsW).2) :=
  ⟨by decide, snapshots_equal_lengths_and_monotone 3 initBuf opsW (by decide)⟩

/-- C8: `data_count` is incremented by exactly one on each appended frame
(one per append-group, so the final count is the start count plus the number
of appends) and is never decremented, hence the counts observed by
successive snapshots are monotonically non-decreasing. -/
theorem data_count_one_per_frame_monotone (N : Nat) (s : BufState) (f : Frame)
    (ops : List BufOp) :
    (appendGroup N s f).data_count = s.data_count + 1 ∧
    (runOps N s ops).1.data_count = s.data_count + countAppends ops ∧
    List.Chain' (fun a b : BufState => a.data_count ≤ b.data_count)
      (runOps N s ops).2 :=
  ⟨rfl, runOps_data_count N ops s, runOps_count_chain N ops s⟩

/-! ### The `running` stop flag

test_basiclog.py line 43: `running = True` at module load (run start).  The
only assignment anywhere in the program after that is line 189,
`running = False`, inside the `except KeyboardInterrupt` handler of
`__main__`.  The acquisition loop reads the flag at line 136
(`if not running: break`) and the main loop reads it at line 185
(`while running and data_thread.is_alive()`), but neither writes it: the
deadline break (lines 153-154) and a normal end of the frame iterator leave
the flag untouched. -/

/-- Events of one run that could conceivably touch the `running` flag. -/
inductive MainEvent where
  | keyboardInterrupt
  | acquisitionTimeout
  | gracefulCompletion
  | frameTick
  deriving DecidableEq

/-- Effect of one event on the `running` flag, read off the source: only the
`except KeyboardInterrupt` handler (line 189) writes `running = False`; the
deadline break, a graceful completion and ordinary frame processing do not
assign to `running`. -/
def runningStep : Bool → MainEvent → Bool
  | _, MainEvent.keyboardInterrupt => false
  | b, MainEvent.acquisitionTimeout => b
  | b, MainEvent.gracefulCompletion => b
  | b, MainEvent.frameTick => b

/-- Value of the `running` flag after a sequence of run events, starting from
the run-start value `True` (line 43). -/
def runningAfter (evs : List MainEvent) : Bool :=
  evs.foldl runningStep true

lemma runningStep_false (e : MainEvent) : runningStep false e = false := by
  cases e <;> rfl

lemma foldl_runningStep_false (evs : List MainEvent) :
    evs.foldl runningStep false = false := by
  induction evs with
  | nil => rfl
  | cons e rest ih => rw [List.foldl_cons, runningStep_false]; exact ih

/-- C4 counterexample: the claim says the acquisition wall-clock timeout sets
the flag to stopped, but after a run consisting of one acquisition-timeout
event the flag still holds its run-start value `true` — the deadline break
never assigns to `running`. -/
theorem running_not_set_by_timeout :
    ¬ (runningAfter [MainEvent.acquisitionTimeout] = false) := by
  decide

/-- C4 (amended): the `running` flag is a single boolean created `true` at
run start; among the run events only the external interrupt sets it to
stopped (the acquisition timeout and graceful completion leave it unchanged);
and once stopped it is never reset for the remainder of the run. -/
theorem running_flag_lifecycle (evs tail : List MainEvent) (e : MainEvent)
    (h : runningAfter evs = false) :
    runningAfter [] = true ∧
    runningAfter (evs ++ [MainEvent.keyboardInterrupt]) = false ∧
    runningStep true MainEvent.acquisitionTimeout = true ∧
    runningStep true MainEvent.gracefulCompletion = true ∧
    (runningStep false e = false ∧ runningAfter (evs ++ tail) = false) := by
  refine ⟨rfl, ?_, rfl, rfl, runningStep_false e, ?_⟩
  · rw [runningAfter, List.foldl_append]
    rw [runningAfter] at h
    rw [h]
    rfl
  · rw [runningAfter, List.foldl_append]
    rw [runningAfter] at h
    rw [h]
    exact foldl_runningStep_false tail

/-- Witness for C4 (amended) at a concrete run: two frame ticks, then the
flag is observed `false` after an external interrupt and stays `false`. -/
theorem running_flag_lifecycle_witness :
    runningAfter [MainEvent.frameTick, MainEvent.keyboardInterrupt] = false ∧
    (runningAfter [] = true ∧
     runningAfter ([MainEvent.frameTick, MainEvent.keyboardInterrupt] ++
        [MainEvent.keyboardInterrupt]) = false ∧
     runningStep true MainEvent.acquisitionTimeout = true ∧
     runningStep true MainEvent.gracefulCompletion = true ∧
     (runningStep false MainEvent.frameTick = false ∧
      runningAfter ([MainEvent.frameTick, MainEvent.keyboardInterrupt] ++
        [MainEvent.frameTick, MainEvent.gracefulCompletion]) = false)) :=
  ⟨by decide,
   running_flag_lifecycle [MainEvent.frameTick, MainEvent.keyboardInterrupt]
     [MainEvent.frameTick, MainEvent.gracefulCompletion]
     MainEvent.frameTick (by decide)⟩

/-! ### The acquisition loop (`data_collection_thread`, lines 118-157)

The thread body wraps everything in `try ... except Exception` (lines
128-157).  Inside, after connecting and subscribing, the loop
`for log_entry in logger:` does, per iteration: (1) `if not running: break`
(line 136); (2) unpack the frame; (3) append the group under the lock and
increment the counter (lines 144-149); (4) print; (5)
`if time.time() > endTime: break` (lines 153-154), with
`endTime = time.time() + 60` (line 133).

The environment of one iteration is the retrieved frame together with the
value of the shared `running` flag observed at the check and the value of
`time.time()` observed at the deadline check; the blocking iterator is a
list of such events, where an `iterFail` event models the iterator (or any
statement inside the `with` blocks) raising. -/

/-- Errors the external link can raise. -/
inductive LinkError where
  | linkUnavailable
  | other (code : Nat)
  deriving DecidableEq

/-- The environment of one loop iteration: the retrieved frame, the shared
`running` flag as read at line 136, and the wall clock as read at
line 153. -/
structure LoopInput where
  frame : Frame
  runningAtCheck : Bool
  timeAfter : Int
  deriving DecidableEq

/-- One event delivered by the blocking frame iterator: either a frame (with
its iteration environment) or a failure raised by the iterator. -/
inductive LoopEvent where
  | frame (i : LoopInput)
  | iterFail (e : LinkError)
  deriving DecidableEq

/-- Why the acquisition loop stopped. -/
inductive ExitReason where
  | stopFlag
  | deadline
  | iterEnd
  deriving DecidableEq

/-- The `for log_entry in logger:` loop (lines 135-154) over a list of
iterator events, threading the shared buffer state: check the stop flag
first, then append the frame group, then check the wall-clock deadline.  An
`iterFail` event propagates as an exception (`Except.error`). -/
def runLoop (N : Nat) (endTime : Int) :
    List LoopEvent → BufState → Except LinkError (BufState × ExitReason)
  | [], s => Except.ok (s, ExitReason.iterEnd)
  | LoopEvent.iterFail e :: _, _ => Except.error e
  | LoopEvent.frame i :: rest, s =>
    if i.runningAtCheck = false then Except.ok (s, ExitReason.stopFlag)
    else
      let s' := appendGroup N s i.frame
      if endTime < i.timeAfter then Except.ok (s', ExitReason.deadline)
      else runLoop N endTime rest s'

/-- The fixed run duration in seconds: `endTime = time.time() + 60`
(line 133). -/
def runDuration : Int := 60

/-- The deadline computed at line 133 from the clock value at loop entry. -/
def mkEndTime (t0 : Int) : Int := t0 + runDuration

/-- What the `try:` block of `data_collection_thread` produces: either the
final buffer state and exit reason, or the exception that escaped the `with`
blocks (connection failure or iterator failure). -/
def threadBody (N : Nat) (t0 : Int)
    (conn : Except LinkError (List LoopEvent)) :
    Except LinkError (BufState × ExitReason) :=
  match conn with
  | Except.error e => Except.error e
  | Except.ok evs => runLoop N (mkEndTime t0) evs initBuf

/-- How `data_collection_thread` returns to its caller (the `threading`
machinery): either it completed the `try:` block, or the
`except Exception` handler at lines 155-157 caught an error and reported
it by printing. -/
inductive ThreadResult where
  | completed (s : BufState) (r : ExitReason)
  | errorReported (e : LinkError)
  deriving DecidableEq

/-- The whole of `data_collection_thread` (lines 118-157).  The outer
`Except` is the function's own exception behavior towards its caller: an
`Except.error` here would be an exception propagating past the loop
boundary. -/
def dataCollectionThread (N : Nat) (t0 : Int)
    (conn : Except LinkError (List LoopEvent)) :
    Except LinkError ThreadResult :=
  match threadBody N t0 conn with
  | Except.error e => Except.ok (ThreadResult.errorReported e)
  | Except.ok (s, r) => Except.ok (ThreadResult.completed s r)

/-- C5: the wall-clock deadline stops the loop automatically and
unconditionally: whenever a frame arrives whose deadline-check clock reading
exceeds `t0 + 60` while the stop flag was never set at the check (so the
cancellation is independent of the StopSignal), the loop terminates right at
that iteration with exit reason `deadline`, no matter what further events
the iterator would have delivered. -/
theorem deadline_stops_loop_unconditionally (N : Nat) (t0 : Int)
    (i : LoopInput) (rest : List LoopEvent) (s : BufState)
    (hrun : i.runningAtCheck = true)
    (hlate : mkEndTime t0 < i.timeAfter) :
    runLoop N (mkEndTime t0) (LoopEvent.frame i :: rest) s =
      Except.ok (appendGroup N s i.frame, ExitReason.deadline) := by
  simp [runLoop, hrun, hlate]

/-- Witness for C5: a concrete run where the clock reads 61 s past loop
entry at the deadline check of the very first frame; the loop stops there
with reason `deadline` although the iterator had more events queued. -/
theorem deadline_stops_loop_unconditionally_witness :
    ({ frame := frameA, runningAtCheck := true, timeAfter := 61 } :
        LoopInput).runningAtCheck = true ∧
    mkEndTime 0 <
      ({ frame := frameA, runningAtCheck := true, timeAfter := 61 } :
        LoopInput).timeAfter ∧
    runLoop 3 (mkEndTime 0)
        [LoopEvent.frame { frame := frameA, runningAtCheck := true, timeAfter := 61 },
         LoopEvent.frame { frame := frameB, runningAtCheck := true, timeAfter := 62 }]
        initBuf =
      Except.ok (appendGroup 3 initBuf frameA, ExitReason.deadline) :=
  ⟨rfl, by decide,
   deadline_stops_loop_unconditionally 3 0
     { frame := frameA, runningAtCheck := true, timeAfter := 61 }
     [LoopEvent.frame { frame := frameB, runningAtCheck := true, timeAfter := 62 }]
     initBuf rfl (by decide)⟩

/-- C10: the stop-flag check precedes the append: if the flag is observed
stopped at the start of an iteration, the loop exits with reason `stopFlag`
and the state is returned untouched — the retrieved frame is not appended to
any buffer and the counter is not incremented. -/
theorem stop_checked_before_append (N : Nat) (endTime : Int) (i : LoopInput)
    (rest : List LoopEvent) (s : BufState)
    (hstop : i.runningAtCheck = false) :
    runLoop N endTime (LoopEvent.frame i :: rest) s =
      Except.ok (s, ExitReason.stopFlag) := by
  simp [runLoop, hstop]

/-- Witness for C10: a concrete iteration observing the flag stopped leaves
the one-frame buffer state exactly as it was. -/
theorem stop_checked_before_append_witness :
    ({ frame := frameB, runningAtCheck := false, timeAfter := 1 } :
        LoopInput).runningAtCheck = false ∧
    runLoop 3 100
        [LoopEvent.frame { frame := frameB, runningAtCheck := false, timeAfter := 1 }]
        (appendGroup 3 initBuf frameA) =
      Except.ok (appendGroup 3 initBuf frameA, ExitReason.stopFlag) :=
  ⟨rfl,
   stop_checked_before_append 3 100
     { frame := frameB, runningAtCheck := false, timeAfter := 1 }
     [] (appendGroup 3 initBuf frameA) rfl⟩

/-- C9: `data_collection_thread` never lets an exception propagate past the
loop boundary: for every connection outcome and every sequence of iterator
events its result is `Except.ok`, and when establishing the connection (or
the iterator) fails with error `e` the thread returns normally having
reported exactly that failure. -/
theorem thread_never_raises (N : Nat) (t0 : Int)
    (conn : Except LinkError (List LoopEvent)) :
    (dataCollectionThread N t0 conn).isOk = true ∧
    (∀ e : LinkError, conn = Except.error e →
      dataCollectionThread N t0 conn =
        Except.ok (ThreadResult.errorReported e)) ∧
    (∀ evs : List LoopEvent, ∀ e : LinkError,
      conn = Except.ok evs →
      runLoop N (mkEndTime t0) evs initBuf = Except.error e →
      dataCollectionThread N t0 conn =
        Except.ok (ThreadResult.errorReported e)) := by
  refine ⟨?_, ?_, ?_⟩
  · cases conn with
    | error e => rfl
    | ok evs =>
      simp only [dataCollectionThread, threadBody]
      cases h : runLoop N (mkEndTime t0) evs initBuf with
      | error e => rfl
      | ok p => rfl
  · intro e he
    subst he
    rfl
  · intro evs e he hrun
    subst he
    simp only [dataCollectionThread, threadBody, hrun]

/-- Witness for C9: with a failed connection the thread returns normally,
reporting `linkUnavailable`; the implications are discharged at the concrete
connection outcome. -/
theorem thread_never_raises_witness :
    (dataCollectionThread 3 0
        (Except.error LinkError.linkUnavailable)).isOk = true ∧
    dataCollectionThread 3 0 (Except.error LinkError.linkUnavailable) =
      Except.ok (ThreadResult.errorReported LinkError.linkUnavailable) :=
  ⟨(thread_never_raises 3 0 (Except.error LinkError.linkUnavailable)).1,
   (thread_never_raises 3 0 (Except.error LinkError.linkUnavailable)).2.1
     LinkError.linkUnavailable rfl⟩

/-! ### The render tick (`animate`, lines 45-116)

Under the lock, `animate` branches on `len(timestamps) > 2` (line 49).  In
the plot branch it reads `timestamps[0]` (line 51, an IndexError on an empty
deque), computes relative times, copies the three channel lists, and sets
axis limits guarded by `if all_data:` before `min`/`max` (lines 84-85, a
ValueError on an empty list) and by `if len(times_plot) > 0:` before
`times_plot[-1]` (lines 92-94, an IndexError on an empty list).  In the
other branch it renders the "Waiting for data..." placeholder
(lines 98-112).  Each operation that can raise in Python is modelled in
`Option`, with `none` as the raised exception; the surrounding guards are
modelled exactly as in the source.  The division by 1000.0 in the relative
times and the numeric margins are dropped: timestamps stay integers and no
claim depends on the scaling. -/

/-- Python `min` over a list: raises (modelled `none`) on an empty list. -/
def pyMin : List Int → Option Int
  | [] => none
  | x :: xs => some (xs.foldl min x)

/-- Python `max` over a list: raises (modelled `none`) on an empty list. -/
def pyMax : List Int → Option Int
  | [] => none
  | x :: xs => some (xs.foldl max x)

/-- Lines 83-89: `all_data = roll + pitch + yaw`; only if `all_data` is
non-empty are `min(all_data)`/`max(all_data)` evaluated; otherwise no y-axis
limits are set.  The outer `Option` is exception behavior, the inner one is
whether limits were set. -/
def yLimits (allData : List Int) : Option (Option (Int × Int)) :=
  if allData.isEmpty = false then
    match pyMin allData, pyMax allData with
    | some mn, some mx => some (some (mn, mx))
    | _, _ => none
  else some none

/-- Lines 92-97: only if `times_plot` is non-empty is `times_plot[-1]`
evaluated to set the x-axis limit; otherwise no x-axis limit is set. -/
def xMax (times : List Int) : Option (Option Int) :=
  if 0 < times.length then
    match times.getLast? with
    | some tl => some (some tl)
    | none => none
  else some none

/-- What one render tick hands to the plotting backend. -/
inductive RenderAction where
  | plot (times roll pitch yaw : List Int)
      (ylims : Option (Int × Int)) (xm : Option Int) (count : Nat)
  | placeholder (count : Nat)
  deriving DecidableEq

/-- Whether a render action is the "Waiting for data..." placeholder. -/
def isPlaceholder : RenderAction → Bool
  | RenderAction.placeholder _ => true
  | RenderAction.plot _ _ _ _ _ _ _ => false

/-- Whether a render action is the real plot path. -/
def isPlot : RenderAction → Bool
  | RenderAction.plot _ _ _ _ _ _ _ => true
  | RenderAction.placeholder _ => false

/-- One `animate` tick (lines 45-116) on a snapshot of the shared state:
branch on `len(timestamps) > 2`; in the plot branch read `timestamps[0]`,
build the relative-time series, compute the guarded axis limits and emit the
plot; otherwise emit the placeholder.  `none` is a raised exception. -/
def animateTick (s : BufState) : Option RenderAction :=
  if 2 < s.timestamps.length then
    match s.timestamps.head? with
    | none => none
    | some t0 =>
      let times := s.timestamps.map (fun t => t - t0)
      match yLimits (s.roll ++ s.pitch ++ s.yaw) with
      | none => none
      | some ylims =>
        match xMax times with
        | none => none
        | some xm =>
          some (RenderAction.plot times s.roll s.pitch s.yaw ylims xm
            s.data_count)
  else
    some (RenderAction.placeholder s.data_count)

lemma yLimits_isSome (l : List Int) : (yLimits l).isSome = true := by
  cases l with
  | nil => rfl
  | cons x xs => simp [yLimits, pyMin, pyMax]

lemma xMax_isSome (l : List Int) : (xMax l).isSome = true := by
  cases l with
  | nil => rfl
  | cons x xs =>
    have hne : (x :: xs) ≠ [] := by simp
    have h2 : ((x :: xs).getLast?).isSome = true :=
      List.getLast?_isSome.mpr hne
    simp only [xMax, List.length_cons, Nat.succ_pos, if_pos]
    cases hgl : (x :: xs).getLast? with
    | none => rw [hgl] at h2; simp at h2
    | some tl => rfl

lemma animateTick_of_small (s : BufState) (h : ¬ 2 < s.timestamps.length) :
    animateTick s = some (RenderAction.placeholder s.data_count) := by
  simp [animateTick, h]

lemma animateTick_of_large (s : BufState) (h : 2 < s.timestamps.length) :
    ∃ times ylims xm,
      animateTick s =
        some (RenderAction.plot times s.roll s.pitch s.yaw ylims xm
          s.data_count) := by
  unfold animateTick
  rw [if_pos h]
  cases hts : s.timestamps with
  | nil => rw [hts] at h; simp at h
  | cons t ts =>
    simp only [List.head?_cons]
    have hy := yLimits_isSome (s.roll ++ s.pitch ++ s.yaw)
    cases hyl : yLimits (s.roll ++ s.pitch ++ s.yaw) with
    | none => rw [hyl] at hy; simp at hy
    | some ylims =>
      have hx := xMax_isSome ((t :: ts).map (fun v => v - t))
      cases hxm : xMax ((t :: ts).map (fun v => v - t)) with
      | none => rw [hxm] at hx; simp at hx
      | some xm => exact ⟨(t :: ts).map (fun v => v - t), ylims, xm, rfl⟩

/-- C6: on every render tick, the placeholder is rendered exactly when the
snapshot has at most 2 samples and the real plot path is taken exactly when
it has more than 2; the two paths are mutually exclusive. -/
theorem placeholder_iff_few_samples (s : BufState) :
    Option.map isPlaceholder (animateTick s) =
      some (decide (s.timestamps.length ≤ 2)) ∧
    Option.map isPlot (animateTick s) =
      some (decide (2 < s.timestamps.length)) := by
  by_cases h : 2 < s.timestamps.length
  · obtain ⟨times, ylims, xm, heq⟩ := animateTick_of_large s h
    rw [heq]
    have h2 : ¬ s.timestamps.length ≤ 2 := Nat.not_le.mpr h
    simp [isPlaceholder, isPlot, h, h2]
  · rw [animateTick_of_small s h]
    have h2 : s.timestamps.length ≤ 2 := Nat.not_lt.mp h
    simp [isPlaceholder, isPlot, h, h2]

/-- C7: a render tick never raises, whatever the buffer state: empty, one or
two samples, or partially filled channel lists of any (even mismatched)
lengths — every indexing and every min/max it performs sits behind the
source's guards, so the tick always returns a render action. -/
theorem animate_tick_total (s : BufState) :
    (animateTick s).isSome = true := by
  by_cases h : 2 < s.timestamps.length
  · obtain ⟨times, ylims, xm, heq⟩ := animateTick_of_large s h
    rw [heq]; rfl
  · rw [animateTick_of_small s h]; rfl

/-! ### The scripted flight (`test_hover.py`, lines 16-39)

The script enters `with SyncCrazyflie(URI, ...) as scf` (connect on enter,
disconnect on exit), sends the arming request, then enters
`with MotionCommander(scf) as mc` (take off on enter, land on exit) and runs
the motion script `mc.up(0.7); mc.down(0.7); mc.stop()` (the `time.sleep`
calls issue no commands).  The enter/exit behavior of the two context
managers is implemented in the external cflib library, not in this
repository; it is modelled here from the spec: `MotionCommander.__exit__`
issues the land command, `SyncCrazyflie.__exit__` disconnects, and Python's
`with` statement runs `__exit__` on every exit path — normal completion,
error, or external interrupt — before the original error is re-raised to
the caller. -/

/-- A motion command of the script body. -/
inductive MotionKind where
  | up
  | down
  | stop
  deriving DecidableEq

/-- How a motion command can fail: the vehicle does not acknowledge in time,
or an external interrupt arrives while waiting. -/
inductive FlightError where
  | motionTimeout
  | interrupted
  deriving DecidableEq

/-- Commands observable on the link during the scripted flight. -/
inductive FlightEvent where
  | arm
  | takeoff
  | motion (k : MotionKind)
  | land
  | disconnect
  deriving DecidableEq

/-- The motion script of test_hover.py lines 29-37: `up(0.7)`, `down(0.7)`,
`stop()`. -/
def hoverScript : List MotionKind := [MotionKind.up, MotionKind.down, MotionKind.stop]

/-- Modelled from the spec: each motion command is a command-and-wait
operation that blocks until the vehicle reports completion or fails
(`MotionTimeout`, or an external interrupt); `fails n` is the outcome of the
`n`-th command.  The script body runs its commands in order and stops at the
first failure; a failing command has already been issued on the link when
its error propagates. -/
def runCmds (fails : Nat → Option FlightError) :
    List MotionKind → Nat → List FlightEvent × Option FlightError
  | [], _ => ([], none)
  | k :: rest, idx =>
    match fails idx with
    | some e => ([FlightEvent.motion k], some e)
    | none =>
      let r := runCmds fails rest (idx + 1)
      (FlightEvent.motion k :: r.1, r.2)

/-- Modelled from the spec: Python `with`-statement semantics for a scope —
the enter events are issued, the body runs, and the exit events are issued
exactly once on every exit path (normal completion, error, or external
interrupt) before the body's error, if any, is re-raised to the caller. -/
def withScope (enterEvs exitEvs : List FlightEvent)
    (body : List FlightEvent × Option FlightError) :
    List FlightEvent × Option FlightError :=
  (enterEvs ++ body.1 ++ exitEvs, body.2)

/-- Modelled from the spec: the whole scenario of test_hover.py lines 20-39
— the SyncCrazyflie scope (disconnect on exit) around the arming request,
around the MotionCommander scope (take off on enter, land on exit), around
the motion script. -/
def hoverRun (fails : Nat → Option FlightError) :
    List FlightEvent × Option FlightError :=
  withScope [] [FlightEvent.disconnect]
    (let inner :=
      withScope [FlightEvent.takeoff] [FlightEvent.land]
        (runCmds fails hoverScript 0)
     (FlightEvent.arm :: inner.1, inner.2))

lemma runCmds_no_land (fails : Nat → Option FlightError) :
    ∀ (ks : List MotionKind) (idx : Nat),
      (runCmds fails ks idx).1.count FlightEvent.land = 0 ∧
      (runCmds fails ks idx).1.count FlightEvent.disconnect = 0 := by
  intro ks
  induction ks with
  | nil => intro idx; simp [runCmds]
  | cons k rest ih =>
    intro idx
    cases hf : fails idx with
    | some e => simp [runCmds, hf]
    | none => simp [runCmds, hf, ih (idx + 1)]

lemma runCmds_err_at (fails : Nat → Option FlightError) :
    ∀ (ks : List MotionKind) (idx i : Nat) (e : FlightError),
      i < ks.length → (∀ j, j < i → fails (idx + j) = none) →
      fails (idx + i) = some e → (runCmds fails ks idx).2 = some e := by
  intro ks
  induction ks with
  | nil => intro idx i e hi _ _; simp at hi
  | cons k rest ih =>
    intro idx i e hi hfirst hf
    cases i with
    | zero =>
      have hf0 : fails idx = some e := by simpa using hf
      simp [runCmds, hf0]
    | succ i' =>
      have h0 : fails idx = none := by
        have := hfirst 0 (Nat.succ_pos i')
        simpa using this
      have hfirst' : ∀ j, j < i' → fails (idx + 1 + j) = none := by
        intro j hj
        have := hfirst (j + 1) (Nat.succ_lt_succ hj)
        have harith : idx + (j + 1) = idx + 1 + j := by omega
        rwa [harith] at this
      have hf' : fails (idx + 1 + i') = some e := by
        have harith : idx + (i' + 1) = idx + 1 + i' := by omega
        rwa [harith] at hf
      have hi' : i' < rest.length := by simpa using hi
      simp [runCmds, h0, ih (idx + 1) i' e hi' hfirst' hf']

lemma runCmds_all_ok (fails : Nat → Option FlightError) :
    ∀ (ks : List MotionKind) (idx : Nat),
      (∀ j, j < ks.length → fails (idx + j) = none) →
      (runCmds fails ks idx).2 = none := by
  intro ks
  induction ks with
  | nil => intro idx _; simp [runCmds]
  | cons k rest ih =>
    intro idx hall
    have h0 : fails idx = none := by
      have := hall 0 (Nat.succ_pos rest.length)
      simpa using this
    have hall' : ∀ j, j < rest.length → fails (idx + 1 + j) = none := by
      intro j hj
      have := hall (j + 1) (Nat.succ_lt_succ hj)
      have harith : idx + (j + 1) = idx + 1 + j := by omega
      rwa [harith] at this
    simp [runCmds, h0, ih (idx + 1) hall']

/-- C1: on every exit path of the flight scope (normal completion, error or
external interrupt in any position of the script), the observed link traffic
contains exactly one land command and exactly one disconnect, with the land
immediately preceding the disconnect at the very end; if the first failing
command failed with `e`, the scope re-raises exactly `e` to the caller, and
if no command failed the scope exits without error. -/
theorem scoped_flight_guaranteed_release (fails : Nat → Option FlightError) :
    ((hoverRun fails).1.count FlightEvent.land = 1 ∧
     (hoverRun fails).1.count FlightEvent.disconnect = 1 ∧
     ∃ p, (hoverRun fails).1 = p ++ [FlightEvent.land, FlightEvent.disconnect]) ∧
    (∀ i e, i < hoverScript.length → (∀ j, j < i → fails j = none) →
      fails i = some e → (hoverRun fails).2 = some e) ∧
    ((∀ j, j < hoverScript.length → fails j = none) →
      (hoverRun fails).2 = none) := by
  refine ⟨⟨?_, ?_, ?_⟩, ?_, ?_⟩
  · have h := (runCmds_no_land fails hoverScript 0).1
    simp [hoverRun, withScope, h]
  · have h := (runCmds_no_land fails hoverScript 0).2
    simp [hoverRun, withScope, h]
  · refine ⟨FlightEvent.arm :: FlightEvent.takeoff ::
      (runCmds fails hoverScript 0).1, ?_⟩
    simp [hoverRun, withScope]
  · intro i e hi hfirst hf
    have hfirst' : ∀ j, j < i → fails (0 + j) = none := by
      intro j hj; simpa using hfirst j hj
    have hf' : fails (0 + i) = some e := by simpa using hf
    have := runCmds_err_at fails hoverScript 0 i e hi hfirst' hf'
    simpa [hoverRun, withScope] using this
  · intro hall
    have hall' : ∀ j, j < hoverScript.length → fails (0 + j) = none := by
      intro j hj; simpa using hall j hj
    have := runCmds_all_ok fails hoverScript 0 hall'
    simpa [hoverRun, withScope] using this

/-- The failure pattern of the spec's test scenario: the first motion
command (the ascend) times out. -/
def failAscend : Nat → Option FlightError :=
  fun n => if n = 0 then some FlightError.motionTimeout else none

/-- Witness for C1: with the ascend command timing out, the run shows exactly
one land and one disconnect, in that order at the end, and re-raises the
timeout. -/
theorem scoped_flight_guaranteed_release_witness :
    ((hoverRun failAscend).1.count FlightEvent.land = 1 ∧
     (hoverRun failAscend).1.count FlightEvent.disconnect = 1 ∧
     ∃ p, (hoverRun failAscend).1 =
       p ++ [FlightEvent.land, FlightEvent.disconnect]) ∧
    (hoverRun failAscend).2 = some FlightError.motionTimeout :=
  ⟨(scoped_flight_guaranteed_release failAscend).1,
   (scoped_flight_guaranteed_release failAscend).2.1 0 FlightError.motionTimeout
     (by decide) (fun j hj => absurd hj (Nat.not_lt_zero j)) (by decide)⟩
